import Mathlib

/-!
Shallow embedding of `src/APIdata.py` (class `API_to_data`): the Python string
primitives the code relies on, the calendar arithmetic behind the pandas and
strptime calls it makes, the session state machine around `furl`, the query
construction of `get_json`, and the time normalisation of `prepare_dataframe`
and `fiksDato`.  Machine integers do not occur (Python integers are unbounded),
so `Nat`/`Int` are used directly; fallible Python code (exceptions) is embedded
with `Option`/`Except`.
-/

namespace APIdata

/-- Numeric value of a decimal digit character. -/
def dval (c : Char) : Nat := c.toNat - 48

/-- Python slice `s[a:b]` on a string, as used in `fiksDato` (`dato[5:6]`,
`dato[0:4]`). -/
def pySlice (s : String) (a b : Nat) : String := ⟨(s.data.drop a).take (b - a)⟩

/-- Python `s.replace(old, new)` for one-character `old` and `new`, as used on
the time columns in `prepare_dataframe` (`.str.replace('M', '-')` etc.). -/
def pyReplace (s : String) (old new : Char) : String :=
  ⟨s.data.map fun c => if c = old then new else c⟩

/-- Python `s.replace(old, new)` for a one-character `old` and a string `new`:
each occurrence of `old` is expanded once into `new`.  This is the shape of
every substitution in the `convert` table of `search`. -/
def pyReplaceToStr (l : List Char) (old : Char) (new : List Char) : List Char :=
  l.flatMap fun c => if c = old then new else [c]

/-- Little-endian decimal digit characters of `n`, with explicit fuel so the
definition is structurally recursive (the fuel `n + 1` always suffices). -/
def natDigitsRevAux : Nat → Nat → List Char
  | 0, _ => []
  | fuel + 1, n =>
    if n < 10 then [Nat.digitChar n]
    else Nat.digitChar (n % 10) :: natDigitsRevAux fuel (n / 10)

/-- Python `str` of a non-negative integer: canonical decimal representation. -/
def python_str_nat (n : Nat) : String := ⟨(natDigitsRevAux (n + 1) n).reverse⟩

/-- Python `str` of an integer. -/
def python_str_int (i : Int) : String :=
  if i < 0 then "-" ++ python_str_nat (-i).toNat else python_str_nat i.toNat

/-- Python `str.strip()` of surrounding whitespace, performed implicitly by
Python `int()` on its string argument. -/
def pyStrip (l : List Char) : List Char :=
  ((l.dropWhile Char.isWhitespace).reverse.dropWhile Char.isWhitespace).reverse

/-- Decimal digits with single underscores allowed between digits, as accepted
by Python `int()`; accumulator-style value computation. -/
def digitsUAux : List Char → Nat → Option Nat
  | [], acc => some acc
  | c :: rest, acc =>
    if c.isDigit then digitsUAux rest (acc * 10 + dval c)
    else if c = '_' then
      match rest with
      | [] => none
      | d :: rest2 =>
        if d.isDigit then digitsUAux rest2 (acc * 10 + dval d) else none
    else none

/-- Nonempty digit group (underscore-separated) for Python `int()`. -/
def digitsU : List Char → Option Nat
  | [] => none
  | c :: rest => if c.isDigit then digitsUAux rest (dval c) else none

/-- Sign handling of Python `int()` on the stripped character list. -/
def python_int_core : List Char → Option Int
  | [] => none
  | c :: rest =>
    if c = '-' then (digitsU rest).map fun n => -(n : Int)
    else if c = '+' then (digitsU rest).map fun n => (n : Int)
    else (digitsU (c :: rest)).map fun n => (n : Int)

/-- Python `int(s)` on a string: optional surrounding whitespace, optional
sign, then ASCII decimal digits (with legal underscores).  `none` models the
`ValueError` raised on anything else. -/
def python_int (s : String) : Option Int := python_int_core (pyStrip s.data)

/-- Value of a little-endian digit-character list (proof-side helper). -/
def valLE : List Char → Nat
  | [] => 0
  | c :: rest => dval c + 10 * valLE rest

/-- Gregorian leap year rule, as used by pandas timestamps. -/
def isLeap (y : Nat) : Bool := (y % 4 == 0 && y % 100 != 0) || y % 400 == 0

/-- Month lengths of year `y`, January first. -/
def monthLens (y : Nat) : List Nat :=
  [31, if isLeap y then 29 else 28, 31, 30, 31, 30, 31, 31, 30, 31, 30, 31]

/-- Number of days in month `m` (1-based) of year `y`. -/
def daysInMonth (y m : Nat) : Nat := (monthLens y).getD (m - 1) 31

/-- Number of days in year `y`. -/
def daysInYear (y : Nat) : Nat := if isLeap y then 366 else 365

/-- Days strictly before January 1 of year `y` in the proleptic Gregorian
calendar (year 1, day 1 is day number 0). -/
def daysBeforeYear (y : Nat) : Nat :=
  365 * (y - 1) + ((y - 1) / 4 - (y - 1) / 100) + (y - 1) / 400

/-- Days strictly before the first day of month `m` (1-based) in year `y`. -/
def daysBeforeMonth (y m : Nat) : Nat := ((monthLens y).take (m - 1)).sum

/-- Day of the week with Monday = 0 (0001-01-01 proleptic Gregorian was a
Monday), matching Python `datetime.date.weekday()`. -/
def weekdayMon0 (y m d : Nat) : Nat :=
  (daysBeforeYear y + daysBeforeMonth y m + (d - 1)) % 7

/-- A pandas timestamp date (year, month, day). -/
structure PDate where
  year : Nat
  month : Nat
  day : Nat
deriving DecidableEq, Repr

/-- Walk a list of month lengths consuming a 1-based day-of-year. -/
def ydayToMD : List Nat → Nat → Nat → Nat × Nat
  | [], m, j => (m, j)
  | len :: rest, m, j => if j ≤ len then (m, j) else ydayToMD rest (m + 1) (j - len)

/-- Date of 1-based day-of-year `j` in year `y`, rolling into following years
when `j` exceeds the year length (fuel bounds the number of rolled years). -/
def ydayToDate : Nat → Nat → Nat → PDate
  | 0, y, j => ⟨y, 1, j⟩
  | fuel + 1, y, j =>
    if j ≤ daysInYear y then
      let md := ydayToMD (monthLens y) 1 j
      ⟨y, md.1, md.2⟩
    else ydayToDate fuel (y + 1) (j - daysInYear y)

/-- Model of `pd.to_datetime` on the strings this client feeds it: a bare
four-digit year parses to January 1, and `YYYY-M` / `YYYY-MM` parse to the
first day of the month (pandas' default for year-month strings).  Other inputs
raise, modelled as `none`. -/
def pd_to_datetime (s : String) : Option PDate :=
  match s.data with
  | [a, b, c, d] =>
    if a.isDigit && b.isDigit && c.isDigit && d.isDigit then
      some ⟨dval a * 1000 + dval b * 100 + dval c * 10 + dval d, 1, 1⟩
    else none
  | [a, b, c, d, sep, m1] =>
    if a.isDigit && b.isDigit && c.isDigit && d.isDigit && sep = '-' && m1.isDigit
        && decide (1 ≤ dval m1) then
      some ⟨dval a * 1000 + dval b * 100 + dval c * 10 + dval d, dval m1, 1⟩
    else none
  | [a, b, c, d, sep, m1, m2] =>
    if a.isDigit && b.isDigit && c.isDigit && d.isDigit && sep = '-' && m1.isDigit
        && m2.isDigit && decide (1 ≤ dval m1 * 10 + dval m2)
        && decide (dval m1 * 10 + dval m2 ≤ 12) then
      some ⟨dval a * 1000 + dval b * 100 + dval c * 10 + dval d, dval m1 * 10 + dval m2, 1⟩
    else none
  | _ => none

/-- CPython `_strptime` resolution of `%Y-%W-%w` fields: `%w` weekday
(0 = Sunday) is converted to Monday-0 form, the day-of-year is computed from
the Monday-first week number (week 1 starts at the first Monday of the year;
week-0 strings never occur in this pipeline and are not modelled). -/
def strptime_YWw_nums (year week w : Nat) : Option PDate :=
  let dayMon0 := if w = 0 then 6 else w - 1
  let fw := weekdayMon0 year 1 1
  let w0len := (7 - fw) % 7
  if week = 0 then none
  else some (ydayToDate 2 year (1 + w0len + 7 * (week - 1) + dayMon0))

/-- Model of `pd.to_datetime(s, format = "%Y-%W-%w")` on `YYYY-W-d` / `YYYY-WW-d`
strings, the shape produced by the week branch of `prepare_dataframe`. -/
def strptime_YWw (s : String) : Option PDate :=
  match s.data with
  | [a, b, c, d, s1, w1, s2, e] =>
    if a.isDigit && b.isDigit && c.isDigit && d.isDigit && s1 = '-' && w1.isDigit
        && s2 = '-' && e.isDigit && decide (dval e ≤ 6) then
      strptime_YWw_nums (dval a * 1000 + dval b * 100 + dval c * 10 + dval d) (dval w1) (dval e)
    else none
  | [a, b, c, d, s1, w1, w2, s2, e] =>
    if a.isDigit && b.isDigit && c.isDigit && d.isDigit && s1 = '-' && w1.isDigit
        && w2.isDigit && s2 = '-' && e.isDigit && decide (dval e ≤ 6) then
      strptime_YWw_nums (dval a * 1000 + dval b * 100 + dval c * 10 + dval d)
        (dval w1 * 10 + dval w2) (dval e)
    else none
  | _ => none

/-- Monday of ISO week `w` of ISO year `y` (ISO week 1 contains January 4).
Reference definition used to compare the code's `%Y-%W-%w` parsing against the
spec's "ISO week" description; weeks whose Monday falls in the previous
calendar year are not needed and yield `none`. -/
def isoWeekMonday (y w : Nat) : Option PDate :=
  let t : Int := (4 : Int) - weekdayMon0 y 1 4 + 7 * ((w : Int) - 1)
  if 1 ≤ t then some (ydayToDate 2 y t.toNat) else none

/-- Model of `pd.date_range(dato, periods = 1, freq = 'M')` followed by
`str(dates[0])` in `fiksDato`: the anchor string has the shape `YYYY-MM`
(`fiksDato` always builds a zero-padded two-digit month), the single generated
date is the last calendar day of that month, and `str` of the timestamp renders
`YYYY-MM-DD 00:00:00`. -/
def date_range_month_end (s : String) : Option String :=
  match s.data with
  | [a, b, c, d, sep, m1, m2] =>
    if a.isDigit && b.isDigit && c.isDigit && d.isDigit && sep = '-' && m1.isDigit
        && m2.isDigit then
      let y := dval a * 1000 + dval b * 100 + dval c * 10 + dval d
      let m := dval m1 * 10 + dval m2
      if 1 ≤ m ∧ m ≤ 12 then
        some (⟨[a, b, c, d]⟩ ++ "-" ++ ⟨[m1, m2]⟩ ++ "-"
          ++ python_str_nat (daysInMonth y m) ++ " 00:00:00")
      else none
    else none
  | _ => none

/-- Model of `API_to_data.fiksDato` (src/APIdata.py lines 330-341): read the quarter
digit at `dato[5:6]`, multiply by 3, zero-pad when below 12, substitute into
`dato[0:4]-MM`, and resolve via a one-element month-end date range.  `none`
models the exceptions Python would raise (`ValueError` from `int`, parse
failure inside `pd.date_range`). -/
def fiksDato (dato : String) : Option String := do
  let n ← python_int (pySlice dato 5 6)
  let hjdat : Int := n * 3
  let hjdat2 := python_str_int hjdat
  let dato2 := if hjdat < 12 then pySlice dato 0 4 ++ "-0" ++ hjdat2
               else pySlice dato 0 4 ++ "-" ++ hjdat2
  date_range_month_end dato2

/-- Python exception classes observed by this client (an unbound local raises
`UnboundLocalError` at the first use of the name). -/
inductive PyErr where
  | unboundLocal (name : String)
  | indexError
  | keyError
  | valueError
  | typeError
deriving DecidableEq, Repr

/-- A cell of the normalised time column: the month/week/year branches store
pandas timestamps, the quarter branch stores the strings `fiksDato` returns. -/
inductive Cell where
  | str (v : String)
  | date (v : PDate)
deriving DecidableEq, Repr

/-- Input dataframe: ordered named columns of raw string cells. -/
structure Frame where
  cols : List (String × List String)
deriving Repr

/-- Column names, in order (`df.columns`). -/
def Frame.colNames (df : Frame) : List String := df.cols.map Prod.fst

/-- Column lookup by name (`df[name]`); `none` models pandas' `KeyError`. -/
def Frame.col? (df : Frame) (name : String) : Option (List String) :=
  (df.cols.find? fun p => p.1 == name).map Prod.snd

/-- The two-column frame returned by `prepare_dataframe` after the final
`df_ret.columns = ['ds', 'y']` rename. -/
structure RetFrame where
  columns : List String
  ds : List Cell
  y : List String
deriving DecidableEq, Repr

/-- The local variables of `prepare_dataframe` that the branches may or may
not assign (`df_ret`, `freq`, the misspelt `freg`, `periods`); `none` means
the Python local is unbound. -/
structure Locals where
  df_ret : Option (List Cell × List String)
  freq : Option String
  freg : Option String
  periods : Option Nat
deriving Repr

/-- Lift `Option` (a pandas/Python call that may raise) into `Except`. -/
def liftO {α : Type} (e : PyErr) : Option α → Except PyErr α
  | some a => .ok a
  | none => .error e

/-- Python `c in s` for a one-character needle. -/
def pyContains (s : String) (c : Char) : Bool := s.data.contains c

/-- Month branch cells: `pd.to_datetime(df[time].str.replace('M', '-'))`. -/
def cells_month (tc : List String) : Option (List Cell) :=
  (tc.mapM fun c => pd_to_datetime (pyReplace c 'M' '-')).map (List.map Cell.date)

/-- Week branch cells:
`pd.to_datetime(df[time].str.replace('U', '-').add('-1'), format = '%Y-%W-%w')`. -/
def cells_week (tc : List String) : Option (List Cell) :=
  (tc.mapM fun c => strptime_YWw (pyReplace c 'U' '-' ++ "-1")).map (List.map Cell.date)

/-- Quarter branch cells: first `pd.to_datetime(df[time].str.replace('K', '-'))`
is computed (and may raise) but its result is immediately overwritten by
`df[time].apply(self.fiksDato)` on the original cells. -/
def cells_quarter (tc : List String) : Option (List Cell) :=
  (tc.mapM fun c => pd_to_datetime (pyReplace c 'K' '-')).bind fun _ =>
    (tc.mapM fiksDato).map (List.map Cell.str)

/-- Year branch cells: `pd.to_datetime(df[time])`. -/
def cells_year (tc : List String) : Option (List Cell) :=
  (tc.mapM pd_to_datetime).map (List.map Cell.date)

/-- One granularity branch of `prepare_dataframe`: re-select the frame by the
(locale-specific) time column name and the value column, transform the time
cells, and record which locals the branch assigns. -/
def branchLocals (df : Frame) (timeName val_col : String)
    (transform : List String → Option (List Cell))
    (freq freg : Option String) (periods : Option Nat) : Except PyErr Locals := do
  let tc ← liftO .keyError (df.col? timeName)
  let yv ← liftO .keyError (df.col? val_col)
  let cells ← liftO .valueError (transform tc)
  .ok ⟨some (cells, yv), freq, freg, periods⟩

/-- Model of `API_to_data.prepare_dataframe` (src/APIdata.py lines 343-412).  The
session's `language` is passed explicitly; the time column is
`df.columns[-2]`; the first cell of that column is sniffed for the granularity
markers `M`/`U`/`K`; each branch re-selects the frame under the locale's
hard-coded column name and transforms the time cells; finally
`return [df_ret, freq, periods]` raises `UnboundLocalError` for any local the
taken branch did not assign (the week branch assigns `freg`, not `freq`; the
year branch never assigns `periods`). -/
def prepare_dataframe (language : String) (df : Frame) (val_col : String := "value") :
    Except PyErr (RetFrame × String × Nat) := do
  let n := df.cols.length
  if n < 2 then throw .indexError
  else do
    let time0 := df.colNames.getD (n - 2) ""
    let loc : Locals ←
      if language = "no" then do
        let tc0 ← liftO .keyError (df.col? time0)
        let _ ← liftO .keyError (df.col? val_col)
        let cell0 ← liftO .keyError tc0.head?
        if pyContains cell0 'M' then
          branchLocals df "måned" val_col cells_month (some "M") none (some 12)
        else if pyContains cell0 'U' then
          branchLocals df "uke" val_col cells_week none (some "W") (some 52)
        else if pyContains cell0 'K' then
          branchLocals df time0 val_col cells_quarter (some "q") none (some 4)
        else
          branchLocals df "år" val_col cells_year (some "y") none none
      else if language = "en" then do
        let tc0 ← liftO .keyError (df.col? time0)
        let _ ← liftO .keyError (df.col? val_col)
        let cell0 ← liftO .keyError tc0.head?
        if pyContains cell0 'M' then
          branchLocals df "month" val_col cells_month (some "M") none (some 12)
        else if pyContains cell0 'U' then
          branchLocals df "week" val_col cells_week none (some "W") (some 52)
        else if pyContains cell0 'K' then
          branchLocals df "quarter" val_col cells_quarter (some "q") none (some 4)
        else
          branchLocals df "year" val_col cells_year (some "y") none none
      else
        .ok ⟨none, none, none, none⟩
    match loc.df_ret with
    | none => throw (.unboundLocal "df_ret")
    | some (ds, yv) =>
      match loc.freq with
      | none => throw (.unboundLocal "freq")
      | some fr =>
        match loc.periods with
        | none => throw (.unboundLocal "periods")
        | some p => .ok (⟨["ds", "y"], ds, yv⟩, fr, p)

/-- The mutable session state of `API_to_data.__init__`: chosen language, base
URL, and the lazily resolved metadata URL `furl` (`variables` and `time` are
carried by the operations that use them). -/
structure Session where
  language : String
  burl : String
  furl : Option String
deriving DecidableEq, Repr

/-- The identifier normalisation at the top of `get_variables` (lines
137-143): `numb = int(table_id)`, then a leading zero is prepended when
`str(numb)` has exactly four characters.  `none` means `int` raised, a message
was printed, and the local `numb` stays unbound. -/
def normalize_table_id (table_id : String) : Option String :=
  (python_int table_id).map fun numb =>
    let s := python_str_int numb
    if s.length = 4 then "0" ++ s else s

/-- The metadata URL template of `get_variables` (line 146). -/
def resolved_url (s : Session) (numb : String) : String :=
  s.burl ++ "/" ++ s.language ++ "/table/" ++ numb

/-- Model of `API_to_data.get_variables` as a state/trace machine (lines 137-152): the
returned list is the sequence of URLs fetched with `pd.read_json` (the network
calls).  When `furl` is already set the normalised identifier is never used,
so even an unparsable identifier fetches the cached URL; when `furl` is unset
and `int(table_id)` raised, the `furl` template's use of the unbound local
`numb` raises before any network call. -/
def get_variables_net (s : Session) (table_id : String) :
    Except PyErr (Session × List String) :=
  match s.furl with
  | some u => .ok (s, [u])
  | none =>
    match normalize_table_id table_id with
    | some numb =>
      let u := resolved_url s numb
      .ok ({ s with furl := some u }, [u])
    | none => .error (.unboundLocal "numb")

/-- Model of `API_to_data.select`, network part (lines 154-230): it first runs
`get_variables`, then fetches `pd.read_json(self.furl)` once more for the
table title. -/
def select_net (s : Session) (table_id : String) :
    Except PyErr (Session × List String) := do
  let r ← get_variables_net s table_id
  match r.1.furl with
  | some u => .ok (r.1, r.2 ++ [u])
  | none => .error .typeError

/-- Two consecutive `get_variables` calls on one session, with the fetched
URLs of both calls concatenated. -/
def get_variables_twice (s : Session) (table_id : String) :
    Except PyErr (Session × List String) := do
  let r1 ← get_variables_net s table_id
  let r2 ← get_variables_net r1.1 table_id
  .ok (r2.1, r1.2 ++ r2.2)

/-- One variable of the resolved table, as parsed from the metadata response
(`code`, `text`, `valueTexts`, `values`). -/
structure Variable where
  code : String
  text : String
  valueTexts : List String
  values : List String
deriving DecidableEq, Repr

/-- One entry of the query document:
`{"code": code, "selection": {"filter": "item", "values": values}}`. -/
structure QueryEntry where
  code : String
  filter : String
  values : List String
deriving DecidableEq, Repr

/-- The full query document:
`{"query": entries, "response": {"format": "json-stat"}}`. -/
structure QueryDoc where
  query : List QueryEntry
  format : String
deriving DecidableEq, Repr

/-- Model of `API_to_data.get_json` (lines 232-287), with the textual json-stat
assembly and `ast.literal_eval` round trip modelled as direct document
construction (the identity on these documents for quote-free codes and
values).  `nvars` is the number of selection widgets in the box; entry `x`
takes its `code` from `self.variables[x]` (`none` models the `IndexError` when
the widget count exceeds the variable list), `filter` is the constant
`"item"`, and the values are widget `x`'s selected machine values — an empty
selection yields `values = []`, never an omitted entry. -/
def get_json (vars : List Variable) (selections : List (List String)) :
    Option QueryDoc :=
  ((List.range selections.length).mapM fun x =>
      (vars.get? x).map fun v =>
        QueryEntry.mk v.code "item" (selections.getD x [])).map
    fun entries => ⟨entries, "json-stat"⟩

/-- A fallible step of `read_box` after query construction: the HTTP POST or
the response decoding either returns a value or raises some exception. -/
inductive Step (α : Type) where
  | ok (a : α)
  | exn (e : PyErr)

/-- Outcome of `read_box`: either the `[results[0], label]` pair, or the
printed message of the `except` handlers (the function then returns `None`). -/
inductive ReadBoxOutcome where
  | result (frame : String) (label : String)
  | printedMsg (msg : String)
deriving DecidableEq, Repr

/-- Model of `API_to_data.read_box` (lines 301-328): `try` runs `get_json`, POSTs the
query to the box URL, and decodes the response; `except TypeError` and the
bare `except` both print `'You must make choices in the box!'`, so no
exception propagates.  The second component is the list of query documents
POSTed to the data endpoint. -/
def read_box (vars : List Variable) (selections : List (List String))
    (post : QueryDoc → Step String) (decode : String → Step (String × String)) :
    ReadBoxOutcome × List QueryDoc :=
  match get_json vars selections with
  | none => (.printedMsg "You must make choices in the box!", [])
  | some q =>
    match post q with
    | .exn _ => (.printedMsg "You must make choices in the box!", [q])
    | .ok resp =>
      match decode resp with
      | .exn _ => (.printedMsg "You must make choices in the box!", [q])
      | .ok (frame, label) => (.result frame label, [q])

/-- Python `OrderedDict` built from an association list: a repeated key keeps
its first position but is overwritten with the later value. -/
def ordered_dict (pairs : List (String × String)) : List (String × String) :=
  pairs.foldl
    (fun acc kv =>
      if acc.any fun p => p.1 == kv.1 then
        acc.map fun p => if p.1 == kv.1 then (p.1, kv.2) else p
      else acc ++ [kv])
    []

/-- The per-variable option pairs built by `select` (lines 183-185):
`OrderedDict(zip(valueTexts, values))`. -/
def option_pairs (valueTexts values : List String) : List (String × String) :=
  ordered_dict (valueTexts.zip values)

/-- The `convert` table of `search` (lines 86-87), in insertion order. -/
def convert : List (Char × String) :=
  [('æ', "%C3%A6"), ('Æ', "%C3%86"), ('ø', "%C3%B8"), ('Ø', "%C3%98"),
   ('å', "%C3%A5"), ('Å', "%C3%85"), ('"', "%22"), ('(', "%28"), (')', "%29"),
   (' ', "%20")]

/-- The encoding loop of `search` (lines 91-92) on a character list:
`search_str.replace(k, v)` applied for each pair of `convert` in order. -/
def search_encode_list (l : List Char) : List Char :=
  convert.foldl (fun acc kv => pyReplaceToStr acc kv.1 kv.2.data) l

/-- The encoding loop of `search` on the assembled search string. -/
def search_encode (s : String) : String := ⟨search_encode_list s.data⟩

/-- The full search URL of `search` (line 89) after encoding. -/
def search_url (s : Session) (phrase : String) : String :=
  search_encode (s.burl ++ "/" ++ s.language ++ "/table/?query=" ++ phrase)

/-- Specification-side reading of the encoding ("all special
characters/sequences are substituted exactly once each"): one simultaneous
pass that expands each character through the `convert` table once. -/
def spec_single_pass (c : Char) : List Char :=
  match convert.find? fun kv => kv.1 == c with
  | some kv => kv.2.data
  | none => [c]

/-- A concrete two-variable table for the query-construction witness. -/
def exampleVars : List Variable :=
  [⟨"Region", "region", ["Oslo"], ["0301"]⟩, ⟨"Tid", "time", ["2020"], ["2020"]⟩]

/-- A concrete captured selection state: only variable 1 selected anything. -/
def exampleSels : List (List String) := [[], ["2020"]]

theorem str_eq_of_data_eq {a b : String} (h : a.data = b.data) : a = b := by
  cases a; cases b; cases h; rfl

theorem str_data_append (a b : String) : (a ++ b).data = a.data ++ b.data := rfl

/-- Claim C1 (code bug): for a week-marked frame such as `"2020U15"` the claim
expects `prepare_dataframe` to return the Monday of ISO week 15 of 2020 with
frequency `"W"` and 52 periods.  The code instead assigns the frequency to the
misspelt local `freg`, so the final `return [df_ret, freq, periods]` raises
`UnboundLocalError` on `freq`; moreover its `%Y-%W-%w` parse of `"2020-15-1"`
yields 2020-04-13 (strptime Monday-first week numbering), one week after the
ISO week-15 Monday 2020-04-06. -/
theorem prepare_dataframe_week_unbound_freq :
    prepare_dataframe "en" ⟨[("week", ["2020U15"]), ("value", ["100"])]⟩ "value"
        = .error (.unboundLocal "freq")
      ∧ strptime_YWw "2020-15-1" = some ⟨2020, 4, 13⟩
      ∧ isoWeekMonday 2020 15 = some ⟨2020, 4, 6⟩
      ∧ (⟨2020, 4, 13⟩ : PDate) ≠ ⟨2020, 4, 6⟩ :=
  ⟨rfl, rfl, rfl, by decide⟩

/-- Claim C6 (code bug): for a yearly frame such as `"2020"` the claim expects
a normal return with frequency `"y"`.  The yearly branch does parse `"2020"`
to 2020-01-01 and sets `freq = 'y'`, but it never assigns `periods`, so the
final `return [df_ret, freq, periods]` raises `UnboundLocalError` on
`periods` instead of returning. -/
theorem prepare_dataframe_year_unbound_periods :
    prepare_dataframe "en" ⟨[("year", ["2020"]), ("value", ["7"])]⟩ "value"
        = .error (.unboundLocal "periods")
      ∧ pd_to_datetime "2020" = some ⟨2020, 1, 1⟩ :=
  ⟨rfl, rfl⟩

/-- Claim C3, counterexample: `"0123"` is a 4-digit numeric identifier, but
`int` discards its leading zero, `str(numb)` has length 3, no padding happens,
and the normalised identifier is the 3-digit `"123"`, not a 5-digit string. -/
theorem normalize_table_id_leading_zero_cex :
    ("0123".data.all Char.isDigit = true ∧ "0123".length = 4)
      ∧ normalize_table_id "0123" = some "123"
      ∧ ¬ ("123".length = 5) :=
  ⟨by decide, rfl, by decide⟩

/-- Claim C5, counterexample: two `get_variables` calls for the same table
identifier on a fresh session perform two `pd.read_json` fetches of the
metadata URL, not at most one (only the URL string is cached, not the fetched
metadata). -/
theorem get_variables_twice_two_fetches_cex :
    get_variables_twice ⟨"en", "http://data.ssb.no/api/v0", none⟩ "10714"
        = .ok (⟨"en", "http://data.ssb.no/api/v0",
              some "http://data.ssb.no/api/v0/en/table/10714"⟩,
            ["http://data.ssb.no/api/v0/en/table/10714",
             "http://data.ssb.no/api/v0/en/table/10714"])
      ∧ ¬ (["http://data.ssb.no/api/v0/en/table/10714",
            "http://data.ssb.no/api/v0/en/table/10714"].length ≤ 1) :=
  ⟨rfl, by decide⟩

/-- Claim C7, counterexample: with the repeated display label in
`valueTexts = ["a", "a"]`, `values = ["1", "2"]`, the `OrderedDict(zip(...))`
of `select` collapses the two options into one entry carrying the second
value, so index 0's label `"a"` no longer corresponds to `values[0] = "1"`. -/
theorem option_pairs_duplicate_label_cex :
    option_pairs ["a", "a"] ["1", "2"] = [("a", "2")]
      ∧ ("a", "1") ∉ option_pairs ["a", "a"] ["1", "2"]
      ∧ (option_pairs ["a", "a"] ["1", "2"]).length ≠ (["a", "a"].zip ["1", "2"]).length :=
  ⟨rfl, by decide, by decide⟩

/-- Claim C10: once `furl` is set on the session, any later `get_variables`
or `select` call — whatever table identifier it passes — leaves `furl`
unchanged (the `if self.furl is None` guard never overwrites it) and directs
every metadata fetch at the previously resolved URL. -/
theorem furl_never_overwritten (s : Session) (u tid tid2 : String)
    (h : s.furl = some u) :
    get_variables_net s tid = .ok (s, [u])
      ∧ select_net s tid2 = .ok (s, [u, u]) := by
  obtain ⟨lang, burl, furl⟩ := s
  replace h : furl = some u := h
  subst h
  exact ⟨rfl, rfl⟩

/-- Witness for `furl_never_overwritten` at a concrete session already
holding a resolved URL, with two different table identifiers. -/
theorem furl_never_overwritten_witness :
    (⟨"en", "http://data.ssb.no/api/v0",
        some "http://data.ssb.no/api/v0/en/table/10714"⟩ : Session).furl
        = some "http://data.ssb.no/api/v0/en/table/10714"
      ∧ (get_variables_net
            ⟨"en", "http://data.ssb.no/api/v0",
              some "http://data.ssb.no/api/v0/en/table/10714"⟩ "05110"
          = .ok (⟨"en", "http://data.ssb.no/api/v0",
              some "http://data.ssb.no/api/v0/en/table/10714"⟩,
              ["http://data.ssb.no/api/v0/en/table/10714"])
        ∧ select_net
            ⟨"en", "http://data.ssb.no/api/v0",
              some "http://data.ssb.no/api/v0/en/table/10714"⟩ "9999"
          = .ok (⟨"en", "http://data.ssb.no/api/v0",
              some "http://data.ssb.no/api/v0/en/table/10714"⟩,
              ["http://data.ssb.no/api/v0/en/table/10714",
               "http://data.ssb.no/api/v0/en/table/10714"])) :=
  ⟨rfl, furl_never_overwritten _ _ "05110" "9999" rfl⟩

/-- Claim C5, amended: the metadata URL is resolved at most once per session
(the second call finds `furl` set and reuses exactly the cached URL), but the
metadata itself is fetched again on every call — two `get_variables` calls
perform two network fetches of the same URL. -/
theorem get_variables_url_cached_fetch_repeated (lang burl tid numb : String)
    (h : normalize_table_id tid = some numb) :
    get_variables_twice ⟨lang, burl, none⟩ tid
      = .ok (⟨lang, burl, some (burl ++ "/" ++ lang ++ "/table/" ++ numb)⟩,
          [burl ++ "/" ++ lang ++ "/table/" ++ numb,
           burl ++ "/" ++ lang ++ "/table/" ++ numb]) := by
  unfold get_variables_twice get_variables_net
  rw [h]
  rfl

/-- Witness for `get_variables_url_cached_fetch_repeated` on a fresh session
and the identifier `"10714"`. -/
theorem get_variables_url_cached_fetch_repeated_witness :
    normalize_table_id "10714" = some "10714"
      ∧ get_variables_twice ⟨"en", "http://data.ssb.no/api/v0", none⟩ "10714"
        = .ok (⟨"en", "http://data.ssb.no/api/v0",
              some ("http://data.ssb.no/api/v0" ++ "/" ++ "en" ++ "/table/" ++ "10714")⟩,
            ["http://data.ssb.no/api/v0" ++ "/" ++ "en" ++ "/table/" ++ "10714",
             "http://data.ssb.no/api/v0" ++ "/" ++ "en" ++ "/table/" ++ "10714"]) :=
  ⟨rfl, get_variables_url_cached_fetch_repeated "en" "http://data.ssb.no/api/v0"
    "10714" "10714" rfl⟩

/-- Claim C8: whatever the POST and decode steps do, `read_box` returns
either the decoded result or the printed message — no exception propagates —
and the only documents ever POSTed are complete query documents produced by
`get_json`; when query construction itself fails nothing is submitted. -/
theorem read_box_never_propagates (vars : List Variable) (sels : List (List String))
    (post : QueryDoc → Step String) (decode : String → Step (String × String)) :
    ((read_box vars sels post decode).1 = .printedMsg "You must make choices in the box!"
        ∨ ∃ fr lab, (read_box vars sels post decode).1 = .result fr lab)
      ∧ (∀ q ∈ (read_box vars sels post decode).2, get_json vars sels = some q)
      ∧ (get_json vars sels = none → (read_box vars sels post decode).2 = []) := by
  rcases hq : get_json vars sels with _ | q
  · simp [read_box, hq]
  · rcases hp : post q with r | e
    · rcases hd : decode r with d | e
      · refine ⟨Or.inr ⟨d.1, d.2, ?_⟩, ?_, ?_⟩
        · simp [read_box, hq, hp, hd]
        · intro x hx
          simp [read_box, hq, hp, hd] at hx
          simp [hx, hq]
        · intro hnone; exact Option.noConfusion hnone
      · refine ⟨Or.inl (by simp [read_box, hq, hp, hd]), ?_, ?_⟩
        · intro x hx
          simp [read_box, hq, hp, hd] at hx
          simp [hx, hq]
        · intro hnone; exact Option.noConfusion hnone
    · refine ⟨Or.inl (by simp [read_box, hq, hp]), ?_, ?_⟩
      · intro x hx
        simp [read_box, hq, hp] at hx
        simp [hx, hq]
      · intro hnone; exact Option.noConfusion hnone

theorem mapM_eq_map_of_eq_some {α β : Type} (l : List α) (f : α → Option β)
    (g : α → β) (h : ∀ x ∈ l, f x = some (g x)) : l.mapM f = some (l.map g) := by
  induction l with
  | nil => rfl
  | cons a t ih =>
    rw [List.mapM_cons, h a (List.mem_cons_self a t),
      ih fun x hx => h x (List.mem_cons_of_mem a hx)]
    rfl

/-- Claim C4: for a resolved table whose variable list matches the widget
count and a selection state where only variable `k` selected anything,
`get_json` yields a document with exactly one entry per variable, each entry
carrying that variable's `code` with filter `"item"`, entry `k` carrying the
selected values and every other entry carrying `values = []`. -/
theorem get_json_one_entry_per_variable (vars : List Variable)
    (sels : List (List String)) (k : Nat)
    (hlen : sels.length = vars.length) (hk : k < vars.length)
    (honly : ∀ j, j < sels.length → j ≠ k → sels.getD j [] = []) :
    ∃ doc : QueryDoc,
      get_json vars sels = some doc
        ∧ doc.query.length = vars.length
        ∧ doc.format = "json-stat"
        ∧ (∀ j, j < vars.length →
            doc.query.getD j ⟨"", "", []⟩
              = ⟨(vars.getD j ⟨"", "", [], []⟩).code, "item", sels.getD j []⟩)
        ∧ (∀ j, j < vars.length → j ≠ k →
            (doc.query.getD j ⟨"", "", []⟩).values = []) := by
  have hf : ∀ x ∈ List.range sels.length,
      ((vars.get? x).map fun v => QueryEntry.mk v.code "item" (sels.getD x []))
        = some (QueryEntry.mk (vars.getD x ⟨"", "", [], []⟩).code "item"
            (sels.getD x [])) := by
    intro x hx
    have hx' : x < vars.length := by
      rw [← hlen]; exact List.mem_range.mp hx
    rw [List.get?_eq_getElem?, List.getElem?_eq_getElem hx',
      List.getD_eq_getElem?_getD vars x, List.getElem?_eq_getElem hx']
    rfl
  refine ⟨⟨(List.range sels.length).map fun x =>
      QueryEntry.mk (vars.getD x ⟨"", "", [], []⟩).code "item" (sels.getD x []),
      "json-stat"⟩, ?_, ?_, rfl, ?_, ?_⟩
  · unfold get_json
    rw [mapM_eq_map_of_eq_some _ _ _ hf]
    rfl
  · simp [hlen]
  · intro j hj
    have hj' : j < sels.length := by omega
    rw [List.getD_eq_getElem?_getD, List.getElem?_map]
    rw [List.getElem?_range hj']
    rfl
  · intro j hj hne
    have hj' : j < sels.length := by omega
    rw [List.getD_eq_getElem?_getD, List.getElem?_map, List.getElem?_range hj']
    simpa using honly j hj' hne

/-- Witness for `get_json_one_entry_per_variable` at the concrete two-variable
table with a selection only on variable 1. -/
theorem get_json_one_entry_per_variable_witness :
    (exampleSels.length = exampleVars.length
        ∧ 1 < exampleVars.length
        ∧ (∀ j, j < exampleSels.length → j ≠ 1 → exampleSels.getD j [] = []))
      ∧ ∃ doc : QueryDoc,
          get_json exampleVars exampleSels = some doc
            ∧ doc.query.length = exampleVars.length
            ∧ doc.format = "json-stat"
            ∧ (∀ j, j < exampleVars.length →
                doc.query.getD j ⟨"", "", []⟩
                  = ⟨(exampleVars.getD j ⟨"", "", [], []⟩).code, "item",
                      exampleSels.getD j []⟩)
            ∧ (∀ j, j < exampleVars.length → j ≠ 1 →
                (doc.query.getD j ⟨"", "", []⟩).values = []) :=
  ⟨⟨by decide, by decide, by decide⟩,
    get_json_one_entry_per_variable exampleVars exampleSels 1 (by decide) (by decide)
      (by decide)⟩

theorem pyReplaceToStr_append (a b : List Char) (old : Char) (new : List Char) :
    pyReplaceToStr (a ++ b) old new
      = pyReplaceToStr a old new ++ pyReplaceToStr b old new := by
  unfold pyReplaceToStr
  exact List.flatMap_append a b _

theorem search_fold_append (tbl : List (Char × String)) (a b : List Char) :
    tbl.foldl (fun acc kv => pyReplaceToStr acc kv.1 kv.2.data) (a ++ b)
      = tbl.foldl (fun acc kv => pyReplaceToStr acc kv.1 kv.2.data) a
        ++ tbl.foldl (fun acc kv => pyReplaceToStr acc kv.1 kv.2.data) b := by
  induction tbl generalizing a b with
  | nil => rfl
  | cons kv t ih =>
    simp only [List.foldl_cons, pyReplaceToStr_append]
    exact ih _ _

theorem search_encode_list_append (a b : List Char) :
    search_encode_list (a ++ b) = search_encode_list a ++ search_encode_list b :=
  search_fold_append convert a b

theorem spec_single_pass_not_key (c : Char) (h1 : c ≠ 'æ') (h2 : c ≠ 'Æ')
    (h3 : c ≠ 'ø') (h4 : c ≠ 'Ø') (h5 : c ≠ 'å') (h6 : c ≠ 'Å') (h7 : c ≠ '"')
    (h8 : c ≠ '(') (h9 : c ≠ ')') (h10 : c ≠ ' ') : spec_single_pass c = [c] := by
  have e1 : ('æ' == c) = false := beq_eq_false_iff_ne.mpr (Ne.symm h1)
  have e2 : ('Æ' == c) = false := beq_eq_false_iff_ne.mpr (Ne.symm h2)
  have e3 : ('ø' == c) = false := beq_eq_false_iff_ne.mpr (Ne.symm h3)
  have e4 : ('Ø' == c) = false := beq_eq_false_iff_ne.mpr (Ne.symm h4)
  have e5 : ('å' == c) = false := beq_eq_false_iff_ne.mpr (Ne.symm h5)
  have e6 : ('Å' == c) = false := beq_eq_false_iff_ne.mpr (Ne.symm h6)
  have e7 : ('"' == c) = false := beq_eq_false_iff_ne.mpr (Ne.symm h7)
  have e8 : ('(' == c) = false := beq_eq_false_iff_ne.mpr (Ne.symm h8)
  have e9 : (')' == c) = false := beq_eq_false_iff_ne.mpr (Ne.symm h9)
  have e10 : (' ' == c) = false := beq_eq_false_iff_ne.mpr (Ne.symm h10)
  simp [spec_single_pass, convert, List.find?, e1, e2, e3, e4, e5, e6, e7, e8, e9, e10]

theorem search_encode_list_single (c : Char) :
    search_encode_list [c] = spec_single_pass c := by
  by_cases h1 : c = 'æ'
  · subst h1; rfl
  by_cases h2 : c = 'Æ'
  · subst h2; rfl
  by_cases h3 : c = 'ø'
  · subst h3; rfl
  by_cases h4 : c = 'Ø'
  · subst h4; rfl
  by_cases h5 : c = 'å'
  · subst h5; rfl
  by_cases h6 : c = 'Å'
  · subst h6; rfl
  by_cases h7 : c = '"'
  · subst h7; rfl
  by_cases h8 : c = '('
  · subst h8; rfl
  by_cases h9 : c = ')'
  · subst h9; rfl
  by_cases h10 : c = ' '
  · subst h10; rfl
  · rw [spec_single_pass_not_key c h1 h2 h3 h4 h5 h6 h7 h8 h9 h10]
    simp [search_encode_list, convert, pyReplaceToStr,
      h1, h2, h3, h4, h5, h6, h7, h8, h9, h10]

theorem search_encode_list_one_pass (l : List Char) :
    search_encode_list l = l.flatMap spec_single_pass := by
  induction l with
  | nil => rfl
  | cons c t ih =>
    have hsplit : c :: t = [c] ++ t := rfl
    rw [hsplit, search_encode_list_append, search_encode_list_single, ih,
      List.flatMap_append]
    simp

theorem spec_single_pass_of_all {l : List Char}
    (hall : (l.all fun x => spec_single_pass x == [x]) = true)
    {x : Char} (hx : x ∈ l) : spec_single_pass x = [x] := by
  have := List.all_eq_true.mp hall x hx
  exact eq_of_beq this

theorem spec_single_pass_inert (c x : Char) (hx : x ∈ spec_single_pass c) :
    spec_single_pass x = [x] := by
  by_cases h1 : c = 'æ'
  · subst h1; exact spec_single_pass_of_all (by decide) hx
  by_cases h2 : c = 'Æ'
  · subst h2; exact spec_single_pass_of_all (by decide) hx
  by_cases h3 : c = 'ø'
  · subst h3; exact spec_single_pass_of_all (by decide) hx
  by_cases h4 : c = 'Ø'
  · subst h4; exact spec_single_pass_of_all (by decide) hx
  by_cases h5 : c = 'å'
  · subst h5; exact spec_single_pass_of_all (by decide) hx
  by_cases h6 : c = 'Å'
  · subst h6; exact spec_single_pass_of_all (by decide) hx
  by_cases h7 : c = '"'
  · subst h7; exact spec_single_pass_of_all (by decide) hx
  by_cases h8 : c = '('
  · subst h8; exact spec_single_pass_of_all (by decide) hx
  by_cases h9 : c = ')'
  · subst h9; exact spec_single_pass_of_all (by decide) hx
  by_cases h10 : c = ' '
  · subst h10; exact spec_single_pass_of_all (by decide) hx
  · have hc : spec_single_pass c = [c] :=
      spec_single_pass_not_key c h1 h2 h3 h4 h5 h6 h7 h8 h9 h10
    rw [hc] at hx
    have : x = c := by simpa using hx
    rw [this, hc]

theorem flatMap_single_pass_of_inert (l : List Char)
    (h : ∀ x ∈ l, spec_single_pass x = [x]) :
    l.flatMap spec_single_pass = l := by
  induction l with
  | nil => rfl
  | cons a t ih =>
    rw [List.flatMap_cons, h a (List.mem_cons_self a t),
      ih fun x hx => h x (List.mem_cons_of_mem a hx)]
    rfl

theorem flatMap_single_pass_idem (l : List Char) :
    (l.flatMap spec_single_pass).flatMap spec_single_pass
      = l.flatMap spec_single_pass := by
  induction l with
  | nil => rfl
  | cons c t ih =>
    rw [List.flatMap_cons, List.flatMap_append, ih,
      flatMap_single_pass_of_inert _ fun x hx => spec_single_pass_inert c x hx]

/-- Claim C9: the URL encoding performed by `search` is deterministic (a pure
function of the input), idempotent (encoding an encoded string changes
nothing), and substitutes each special character exactly once per occurrence —
it agrees with the single simultaneous pass that expands every occurrence of a
`convert` key once. -/
theorem search_encode_idempotent_one_pass (s : String) :
    search_encode (search_encode s) = search_encode s
      ∧ (search_encode s).data = s.data.flatMap spec_single_pass := by
  have hmk : ∀ l : List Char, (⟨l⟩ : String).data = l := fun l => rfl
  have henc : ∀ t : String, search_encode t = ⟨search_encode_list t.data⟩ :=
    fun t => rfl
  constructor
  · rw [henc (search_encode s), henc s, hmk]
    apply str_eq_of_data_eq
    rw [hmk, hmk]
    rw [search_encode_list_one_pass s.data,
      search_encode_list_one_pass (s.data.flatMap spec_single_pass)]
    exact flatMap_single_pass_idem s.data
  · rw [henc s, hmk]
    exact search_encode_list_one_pass s.data

theorem date_range_month_end_eval (a b c d sep m1 m2 : Char) :
    date_range_month_end ⟨[a, b, c, d, sep, m1, m2]⟩
      = (if a.isDigit && b.isDigit && c.isDigit && d.isDigit && sep = '-' && m1.isDigit
            && m2.isDigit then
          if 1 ≤ dval m1 * 10 + dval m2 ∧ dval m1 * 10 + dval m2 ≤ 12 then
            some (⟨[a, b, c, d]⟩ ++ "-" ++ ⟨[m1, m2]⟩ ++ "-"
              ++ python_str_nat
                  (daysInMonth (dval a * 1000 + dval b * 100 + dval c * 10 + dval d)
                    (dval m1 * 10 + dval m2)) ++ " 00:00:00")
          else none
        else none) := rfl

/-- Claim C2: for every four-digit year `Y` and quarter `q ∈ 1..4`, `fiksDato`
on the date string `Y-q` reads the quarter digit at index 5, computes month
`q * 3`, zero-pads it when it is a single digit, and resolves to the last
calendar day of that month — months 3, 6, 9, 12, whose lengths are 31, 30, 30,
31 for every year, so the results are `Y-03-31`, `Y-06-30`, `Y-09-30`,
`Y-12-31` (rendered as month-end timestamps). -/
theorem fiksDato_quarter_month_end (y1 y2 y3 y4 : Char)
    (h1 : y1.isDigit = true) (h2 : y2.isDigit = true)
    (h3 : y3.isDigit = true) (h4 : y4.isDigit = true) :
    fiksDato (⟨[y1, y2, y3, y4]⟩ ++ "-1")
        = some (⟨[y1, y2, y3, y4]⟩ ++ "-03-31 00:00:00")
      ∧ fiksDato (⟨[y1, y2, y3, y4]⟩ ++ "-2")
        = some (⟨[y1, y2, y3, y4]⟩ ++ "-06-30 00:00:00")
      ∧ fiksDato (⟨[y1, y2, y3, y4]⟩ ++ "-3")
        = some (⟨[y1, y2, y3, y4]⟩ ++ "-09-30 00:00:00")
      ∧ fiksDato (⟨[y1, y2, y3, y4]⟩ ++ "-4")
        = some (⟨[y1, y2, y3, y4]⟩ ++ "-12-31 00:00:00")
      ∧ (∀ y, daysInMonth y 3 = 31 ∧ daysInMonth y 6 = 30 ∧ daysInMonth y 9 = 30
            ∧ daysInMonth y 12 = 31) := by
  have e1 : fiksDato (⟨[y1, y2, y3, y4]⟩ ++ "-1")
      = date_range_month_end ⟨[y1, y2, y3, y4, '-', '0', '3']⟩ := rfl
  have e2 : fiksDato (⟨[y1, y2, y3, y4]⟩ ++ "-2")
      = date_range_month_end ⟨[y1, y2, y3, y4, '-', '0', '6']⟩ := rfl
  have e3 : fiksDato (⟨[y1, y2, y3, y4]⟩ ++ "-3")
      = date_range_month_end ⟨[y1, y2, y3, y4, '-', '0', '9']⟩ := rfl
  have e4 : fiksDato (⟨[y1, y2, y3, y4]⟩ ++ "-4")
      = date_range_month_end ⟨[y1, y2, y3, y4, '-', '1', '2']⟩ := rfl
  refine ⟨?_, ?_, ?_, ?_, ?_⟩
  · rw [e1, date_range_month_end_eval]
    simp only [h1, h2, h3, h4]
    rw [show daysInMonth (dval y1 * 1000 + dval y2 * 100 + dval y3 * 10 + dval y4)
        (dval '0' * 10 + dval '3') = 31 from rfl]
    rfl
  · rw [e2, date_range_month_end_eval]
    simp only [h1, h2, h3, h4]
    rw [show daysInMonth (dval y1 * 1000 + dval y2 * 100 + dval y3 * 10 + dval y4)
        (dval '0' * 10 + dval '6') = 30 from rfl]
    rfl
  · rw [e3, date_range_month_end_eval]
    simp only [h1, h2, h3, h4]
    rw [show daysInMonth (dval y1 * 1000 + dval y2 * 100 + dval y3 * 10 + dval y4)
        (dval '0' * 10 + dval '9') = 30 from rfl]
    rfl
  · rw [e4, date_range_month_end_eval]
    simp only [h1, h2, h3, h4]
    rw [show daysInMonth (dval y1 * 1000 + dval y2 * 100 + dval y3 * 10 + dval y4)
        (dval '1' * 10 + dval '2') = 31 from rfl]
    rfl
  · intro y
    exact ⟨rfl, rfl, rfl, rfl⟩

/-- Witness for `fiksDato_quarter_month_end` at the year 2020 and quarter 2,
the spec's `"2020K2"` example after the `K → -` substitution. -/
theorem fiksDato_quarter_month_end_witness :
    ('2'.isDigit = true ∧ '0'.isDigit = true)
      ∧ fiksDato (⟨['2', '0', '2', '0']⟩ ++ "-2")
        = some (⟨['2', '0', '2', '0']⟩ ++ "-06-30 00:00:00") :=
  ⟨⟨rfl, rfl⟩, (fiksDato_quarter_month_end '2' '0' '2' '0' rfl rfl rfl rfl).2.1⟩

theorem digitChar_isDigit {k : Nat} (hk : k < 10) : (Nat.digitChar k).isDigit = true := by
  interval_cases k <;> decide

theorem dval_digitChar {k : Nat} (hk : k < 10) : dval (Nat.digitChar k) = k := by
  interval_cases k <;> decide

theorem natDigitsRevAux_mem :
    ∀ fuel n c, c ∈ natDigitsRevAux fuel n → ∃ k, k < 10 ∧ c = Nat.digitChar k := by
  intro fuel
  induction fuel with
  | zero => intro n c hc; simp [natDigitsRevAux] at hc
  | succ f ih =>
    intro n c hc
    unfold natDigitsRevAux at hc
    by_cases h : n < 10
    · rw [if_pos h] at hc
      simp at hc
      exact ⟨n, h, hc⟩
    · rw [if_neg h] at hc
      rcases List.mem_cons.mp hc with h1 | h2
      · exact ⟨n % 10, Nat.mod_lt _ (by norm_num), h1⟩
      · exact ih _ _ h2

theorem natDigitsRevAux_ne_nil (fuel n : Nat) (hf : 0 < fuel) :
    natDigitsRevAux fuel n ≠ [] := by
  cases fuel with
  | zero => omega
  | succ f =>
    unfold natDigitsRevAux
    by_cases h : n < 10 <;> simp [h]

theorem valLE_natDigitsRevAux : ∀ fuel n, n < fuel →
    valLE (natDigitsRevAux fuel n) = n := by
  intro fuel
  induction fuel with
  | zero => intro n hn; omega
  | succ f ih =>
    intro n hn
    unfold natDigitsRevAux
    by_cases h : n < 10
    · rw [if_pos h]
      simp [valLE, dval_digitChar h]
    · rw [if_neg h]
      have hdiv : n / 10 < n := Nat.div_lt_self (by omega) (by norm_num)
      simp only [valLE, dval_digitChar (Nat.mod_lt n (by norm_num) : n % 10 < 10)]
      rw [ih (n / 10) (by omega)]
      omega

theorem natDigitsRevAux_length : ∀ fuel n k, n < fuel → 10 ^ k ≤ n →
    n < 10 ^ (k + 1) → (natDigitsRevAux fuel n).length = k + 1 := by
  intro fuel
  induction fuel with
  | zero => intro n k hn; omega
  | succ f ih =>
    intro n k hn hlo hhi
    unfold natDigitsRevAux
    by_cases h : n < 10
    · rw [if_pos h]
      have hk0 : k = 0 := by
        by_contra hk
        have h10 : (10 : Nat) = 10 ^ 1 := by norm_num
        have : (10 : Nat) ^ 1 ≤ 10 ^ k := Nat.pow_le_pow_right (by norm_num) (by omega)
        omega
      simp [hk0]
    · rw [if_neg h]
      cases k with
      | zero =>
        rw [pow_one] at hhi
        omega
      | succ k2 =>
        have hd1 : 10 ^ k2 ≤ n / 10 := by
          rw [Nat.le_div_iff_mul_le (by norm_num)]
          calc 10 ^ k2 * 10 = 10 ^ (k2 + 1) := (pow_succ 10 k2).symm
          _ ≤ n := hlo
        have hd2 : n / 10 < 10 ^ (k2 + 1) := by
          rw [Nat.div_lt_iff_lt_mul (by norm_num)]
          calc n < 10 ^ (k2 + 2) := hhi
          _ = 10 ^ (k2 + 1) * 10 := pow_succ 10 (k2 + 1)
        have hdiv : n / 10 < n := Nat.div_lt_self (by omega) (by norm_num)
        rw [List.length_cons, ih (n / 10) k2 (by omega) hd1 hd2]

theorem digitsUAux_all_digits : ∀ (l : List Char) (acc : Nat),
    (∀ c ∈ l, c.isDigit = true) →
    digitsUAux l acc = some (l.foldl (fun a c => a * 10 + dval c) acc) := by
  intro l
  induction l with
  | nil => intro acc _; rfl
  | cons c t ih =>
    intro acc h
    unfold digitsUAux
    rw [if_pos (h c (List.mem_cons_self c t))]
    rw [ih _ fun x hx => h x (List.mem_cons_of_mem c hx)]
    rfl

theorem digitsU_cons (c : Char) (t : List Char) :
    digitsU (c :: t) = if c.isDigit then digitsUAux t (dval c) else none := rfl

theorem python_int_core_cons (c : Char) (t : List Char) :
    python_int_core (c :: t)
      = (if c = '-' then (digitsU t).map fun n => -(n : Int)
        else if c = '+' then (digitsU t).map fun n => (n : Int)
        else (digitsU (c :: t)).map fun n => (n : Int)) := rfl

theorem digitsU_all_digits (c : Char) (t : List Char)
    (h : ∀ x ∈ c :: t, x.isDigit = true) :
    digitsU (c :: t) = some ((c :: t).foldl (fun a x => a * 10 + dval x) 0) := by
  rw [digitsU_cons]
  rw [if_pos (h c (List.mem_cons_self c t))]
  rw [digitsUAux_all_digits t _ fun x hx => h x (List.mem_cons_of_mem c hx)]
  simp [List.foldl_cons]

theorem foldl_reverse_valLE : ∀ (l : List Char) (acc : Nat),
    l.reverse.foldl (fun a c => a * 10 + dval c) acc
      = acc * 10 ^ l.length + valLE l := by
  intro l
  induction l with
  | nil => intro acc; simp [valLE]
  | cons c t ih =>
    intro acc
    simp only [List.reverse_cons, List.foldl_append, List.foldl_cons,
      List.foldl_nil, ih]
    simp only [valLE, List.length_cons, pow_succ]
    ring

theorem digit_not_whitespace {c : Char} (h : c.isDigit = true) :
    c.isWhitespace = false := by
  rcases hb : c.isWhitespace with _ | _
  · rfl
  · exfalso
    simp only [Char.isWhitespace, Bool.or_eq_true, decide_eq_true_eq] at hb
    rcases hb with ((h1 | h1) | h1) | h1 <;> rw [h1] at h <;> exact absurd h (by decide)

theorem pyStrip_digits (l : List Char) (h : ∀ c ∈ l, c.isDigit = true) :
    pyStrip l = l := by
  unfold pyStrip
  have hfront : l.dropWhile Char.isWhitespace = l := by
    cases l with
    | nil => rfl
    | cons c t =>
      rw [List.dropWhile_cons_of_neg]
      simp [digit_not_whitespace (h c (List.mem_cons_self c t))]
  rw [hfront]
  have hback : l.reverse.dropWhile Char.isWhitespace = l.reverse := by
    cases hr : l.reverse with
    | nil => rfl
    | cons c t =>
      rw [List.dropWhile_cons_of_neg]
      have hc : c ∈ l := by
        rw [← List.mem_reverse, hr]
        exact List.mem_cons_self c t
      simp [digit_not_whitespace (h c hc)]
  rw [hback, List.reverse_reverse]

theorem python_int_round_trip (n : Nat) :
    python_int (python_str_nat n) = some (n : Int) := by
  have hmem : ∀ c ∈ (natDigitsRevAux (n + 1) n).reverse, c.isDigit = true := by
    intro c hc
    rcases natDigitsRevAux_mem (n + 1) n c (List.mem_reverse.mp hc) with ⟨k, hk, rfl⟩
    exact digitChar_isDigit hk
  have hne : (natDigitsRevAux (n + 1) n).reverse ≠ [] := by
    intro hnil
    exact natDigitsRevAux_ne_nil (n + 1) n (by omega)
      (by simpa using congrArg List.reverse hnil)
  have hdata : (python_str_nat n).data = (natDigitsRevAux (n + 1) n).reverse := rfl
  unfold python_int
  rw [hdata, pyStrip_digits _ hmem]
  cases hr : (natDigitsRevAux (n + 1) n).reverse with
  | nil => exact absurd hr hne
  | cons c t =>
    have hmem' : ∀ x ∈ c :: t, x.isDigit = true := by rw [← hr]; exact hmem
    have hc : c.isDigit = true := hmem' c (List.mem_cons_self c t)
    have hcm : ¬ (c = '-') := by
      intro h; rw [h] at hc; exact absurd hc (by decide)
    have hcp : ¬ (c = '+') := by
      intro h; rw [h] at hc; exact absurd hc (by decide)
    rw [python_int_core_cons, if_neg hcm, if_neg hcp, digitsU_all_digits c t hmem']
    have hval : (c :: t).foldl (fun a x => a * 10 + dval x) 0 = n := by
      rw [← hr, foldl_reverse_valLE, valLE_natDigitsRevAux (n + 1) n (by omega)]
      ring
    rw [hval]
    rfl

theorem python_str_nat_length (n k : Nat) (hlo : 10 ^ k ≤ n)
    (hhi : n < 10 ^ (k + 1)) : (python_str_nat n).length = k + 1 := by
  have : (python_str_nat n).length = (natDigitsRevAux (n + 1) n).reverse.length := rfl
  rw [this, List.length_reverse]
  exact natDigitsRevAux_length (n + 1) n k (by omega) hlo hhi

/-- Claim C3, amended: restricted to identifiers in canonical decimal form (no
leading zeros), 4-digit identifiers are zero-padded to 5 digits and 5-digit
identifiers pass through unchanged; and when `int(table_id)` fails, the
printed complaint leaves the local `numb` unbound and `get_variables` fails at
the URL template before any network fetch. -/
theorem normalize_table_id_canonical (n : Nat) :
    (1000 ≤ n → n < 10000 →
        normalize_table_id (python_str_nat n) = some ("0" ++ python_str_nat n)
          ∧ ("0" ++ python_str_nat n).length = 5)
      ∧ (10000 ≤ n → n < 100000 →
        normalize_table_id (python_str_nat n) = some (python_str_nat n)
          ∧ (python_str_nat n).length = 5)
      ∧ (∀ lang burl t : String, python_int t = none →
          get_variables_net ⟨lang, burl, none⟩ t = .error (.unboundLocal "numb")) := by
  refine ⟨?_, ?_, ?_⟩
  · intro hlo hhi
    have hlen : (python_str_nat n).length = 4 :=
      python_str_nat_length n 3 (by norm_num; omega) (by norm_num; omega)
    have hstr : python_str_int (n : Int) = python_str_nat n := by
      unfold python_str_int
      rw [if_neg (by omega : ¬ ((n : Int) < 0))]
      simp
    constructor
    · unfold normalize_table_id
      rw [python_int_round_trip n]
      simp only [Option.map_some']
      rw [hstr, if_pos hlen]
    · rw [String.length_append, hlen]
      rfl
  · intro hlo hhi
    have hlen : (python_str_nat n).length = 5 :=
      python_str_nat_length n 4 (by norm_num; omega) (by norm_num; omega)
    have hstr : python_str_int (n : Int) = python_str_nat n := by
      unfold python_str_int
      rw [if_neg (by omega : ¬ ((n : Int) < 0))]
      simp
    constructor
    · unfold normalize_table_id
      rw [python_int_round_trip n]
      simp only [Option.map_some']
      rw [hstr, if_neg (by omega)]
    · exact hlen
  · intro lang burl t ht
    unfold get_variables_net normalize_table_id
    rw [ht]
    rfl

/-- Witness for `normalize_table_id_canonical` at `n = 1234`, `n = 10714`, and
the unparsable identifier `"abc"`. -/
theorem normalize_table_id_canonical_witness :
    (1000 ≤ 1234 ∧ 1234 < 10000
        ∧ normalize_table_id (python_str_nat 1234) = some ("0" ++ python_str_nat 1234))
      ∧ (10000 ≤ 10714 ∧ 10714 < 100000
        ∧ normalize_table_id (python_str_nat 10714) = some (python_str_nat 10714))
      ∧ (python_int "abc" = none
        ∧ get_variables_net ⟨"en", "http://data.ssb.no/api/v0", none⟩ "abc"
          = .error (.unboundLocal "numb")) :=
  ⟨⟨by norm_num, by norm_num,
      ((normalize_table_id_canonical 1234).1 (by norm_num) (by norm_num)).1⟩,
    ⟨by norm_num, by norm_num,
      ((normalize_table_id_canonical 10714).2.1 (by norm_num) (by norm_num)).1⟩,
    ⟨rfl, (normalize_table_id_canonical 0).2.2 "en" "http://data.ssb.no/api/v0" "abc" rfl⟩⟩

theorem ordered_dict_go (pairs : List (String × String)) :
    ∀ acc : List (String × String), ((acc ++ pairs).map Prod.fst).Nodup →
    pairs.foldl
        (fun acc kv =>
          if acc.any fun p => p.1 == kv.1 then
            acc.map fun p => if p.1 == kv.1 then (p.1, kv.2) else p
          else acc ++ [kv])
        acc
      = acc ++ pairs := by
  induction pairs with
  | nil => intro acc _; simp
  | cons kv t ih =>
    intro acc h
    rw [List.foldl_cons]
    have hkeys : (acc.map Prod.fst).Disjoint ((kv :: t).map Prod.fst) := by
      have := List.nodup_append.mp (by simpa using h)
      exact this.2.2
    have hnotin : (acc.any fun p => p.1 == kv.1) = false := by
      rw [List.any_eq_false]
      intro p hp
      have hne : p.1 ≠ kv.1 := by
        intro he
        exact hkeys (List.mem_map_of_mem Prod.fst hp)
          (by rw [he]; exact List.mem_cons_self kv.1 (t.map Prod.fst))
      simp [hne]
    rw [hnotin]
    simp only [Bool.false_eq_true, if_false]
    have hre : (acc ++ [kv]) ++ t = acc ++ kv :: t := by simp
    rw [ih (acc ++ [kv]) (by rw [hre]; exact h), hre]

theorem ordered_dict_nodup (pairs : List (String × String))
    (h : (pairs.map Prod.fst).Nodup) : ordered_dict pairs = pairs := by
  have := ordered_dict_go pairs [] (by simpa using h)
  simpa [ordered_dict] using this

theorem zip_getElem?_eq {α β : Type} (l1 : List α) (l2 : List β) :
    ∀ (i : Nat) (a : α) (b : β), (l1.zip l2)[i]? = some (a, b) →
      l1[i]? = some a ∧ l2[i]? = some b := by
  induction l1 generalizing l2 with
  | nil => intro i a b h; simp at h
  | cons x t ih =>
    intro i a b h
    cases l2 with
    | nil => simp at h
    | cons y t2 =>
      cases i with
      | zero =>
        simp at h
        simp [h.1, h.2]
      | succ j =>
        simp only [List.zip_cons_cons, List.getElem?_cons_succ] at h ⊢
        exact ih t2 j a b h

/-- Claim C7, amended: the `OrderedDict(zip(valueTexts, values))` option pairs
of `select` preserve the index alignment whenever the display labels are
pairwise distinct — the built pairs are exactly `zip valueTexts values`, so
the entry at index `i` pairs `valueTexts[i]` with `values[i]`.  (With repeated
labels the dict collapses entries and the alignment is lost.) -/
theorem option_pairs_nodup_aligned (texts vals : List String)
    (hnd : texts.Nodup) (hlen : texts.length = vals.length) :
    option_pairs texts vals = texts.zip vals
      ∧ ∀ (i : Nat) (a b : String), (option_pairs texts vals)[i]? = some (a, b) →
          texts[i]? = some a ∧ vals[i]? = some b := by
  have hkeys : ((texts.zip vals).map Prod.fst).Nodup := by
    rw [List.map_fst_zip texts vals (le_of_eq hlen)]
    exact hnd
  have heq : option_pairs texts vals = texts.zip vals :=
    ordered_dict_nodup _ hkeys
  refine ⟨heq, ?_⟩
  intro i a b hi
  rw [heq] at hi
  exact zip_getElem?_eq texts vals i a b hi

/-- Witness for `option_pairs_nodup_aligned` at distinct labels. -/
theorem option_pairs_nodup_aligned_witness :
    ((["Oslo", "Bergen"] : List String).Nodup
        ∧ (["Oslo", "Bergen"] : List String).length = (["0301", "4601"] : List String).length)
      ∧ (option_pairs ["Oslo", "Bergen"] ["0301", "4601"]
            = (["Oslo", "Bergen"] : List String).zip ["0301", "4601"]
        ∧ ∀ (i : Nat) (a b : String),
            (option_pairs ["Oslo", "Bergen"] ["0301", "4601"])[i]? = some (a, b) →
              (["Oslo", "Bergen"] : List String)[i]? = some a
                ∧ (["0301", "4601"] : List String)[i]? = some b) :=
  ⟨⟨by decide, rfl⟩,
    option_pairs_nodup_aligned ["Oslo", "Bergen"] ["0301", "4601"] (by decide) rfl⟩

end APIdata
